import Mathlib

/-!
# Access-control permission model: shallow embedding

This file embeds the access-control permission logic of
`src/access_control_action/app/app.py` (the `render` function's
"Add Permission" handler and "Import Permissions" handler), together with
the permission-store mutations that the spec describes for the backend
(`putEntry`, `setEnabled`, `removeEntry`), and proves properties about it.

The embedding conventions:

* A permission entry (an element of the `allow` / `deny` lists returned by
  `get_access`) carries `item['context']` with either a `"user_id"` key (a
  user entry) or a `"name"` key (a group entry), plus an `enabled` flag.
  We model it as `Entry` with an identifier string, an `isGroup` flag
  (true iff the context carries `"name"`), and the `enabled` flag.
* `groups_result` (the payload of `get_groups(include_users=True)`) maps a
  group name to its member-user list; we model it as an association list
  `Groups`.
* Strings are Lean `String`s; Python `in` on lists is list membership.
-/

namespace AccessControl

/-- One permission entry as seen by the UI handler: the principal
identifier (`item['context']["user_id"]` for a user entry, or
`item['context']["name"]` for a group entry), whether it is a group entry,
and its `enabled` flag. -/
structure Entry where
  ident : String
  isGroup : Bool
  enabled : Bool
deriving DecidableEq, Repr

/-- The access state for one (channel, resource): the `allow` and `deny`
lists returned by `get_access`. -/
structure AccessState where
  allow : List Entry
  deny : List Entry
deriving DecidableEq, Repr

/-- The `get_groups(include_users=True)` payload: group name to member
users. -/
abbrev Groups := List (String × List String)

/-- Membership lookup in `groups_result` (Python `name in groups_result`
followed by `groups_result[name]`). -/
def lookupGroup : Groups → String → Option (List String)
  | [], _ => none
  | gm :: rest, n => if gm.1 = n then some gm.2 else lookupGroup rest n

/-- The members contributed by one entry to the group-expansion lists
(`allow_group` / `deny_group` in app.py lines 475-491): a group entry
whose name is a key of `groups_result` contributes that group's member
list; user entries and unknown groups contribute nothing. -/
def groupMembers (gs : Groups) (e : Entry) : List String :=
  if e.isGroup then (lookupGroup gs e.ident).getD [] else []

/-- `allow_group` / `deny_group` in app.py: the concatenation, in list
order, of the member lists of every group entry of the given list that is
known to `groups_result`. -/
def expandGroups (gs : Groups) (entries : List Entry) : List String :=
  entries.flatMap (groupMembers gs)

/-- `allow_list_formatted` / `deny_list_formatted` in app.py: the principal
identifiers (user ids and group names alike) of the given list. -/
def listIdents (entries : List Entry) : List String :=
  entries.map (·.ident)

/-- The identifiers of the allow list. -/
def allowIds (s : AccessState) : List String := listIdents s.allow

/-- The identifiers of the deny list. -/
def denyIds (s : AccessState) : List String := listIdents s.deny

/-- The five conflict-check outcomes of spec section 4.3.  The constructor
names follow the spec taxonomy; each one stands for the branch of the
handler's if/elif chain (app.py lines 493-504) whose membership test
detected it: `inheritedDenyViaGroup` for the `user_id in deny_group`
branch, `inheritedAllowViaGroup` for `user_id in allow_group`,
`directAllowExists` for `user_id in allow_list_formatted`,
`directDenyExists` for `user_id in deny_list_formatted`, and `noConflict`
for the final `else`. -/
inductive Classification where
  | noConflict
  | directAllowExists
  | directDenyExists
  | inheritedAllowViaGroup
  | inheritedDenyViaGroup
deriving DecidableEq, Repr

/-- The conflict check exactly as the handler performs it (app.py lines
466-504): group-expansion membership is tested first (deny expansion, then
allow expansion), and only then direct list membership (allow list, then
deny list). -/
def classify (gs : Groups) (s : AccessState) (cand : String) : Classification :=
  if cand ∈ expandGroups gs s.deny then .inheritedDenyViaGroup
  else if cand ∈ expandGroups gs s.allow then .inheritedAllowViaGroup
  else if cand ∈ allowIds s then .directAllowExists
  else if cand ∈ denyIds s then .directDenyExists
  else .noConflict

/-- The literal `st.error` message the handler displays for each
classification (app.py lines 493-504); `noConflict` displays none.  Note
that the two inherited branches display each other's side: the
`deny_group` branch says ALLOW and the `allow_group` branch says DENY. -/
def errorMessage : Classification → Option String
  | .inheritedDenyViaGroup =>
      some "User is in a GROUP that already has ALLOW access to this resource"
  | .inheritedAllowViaGroup =>
      some "User is in a GROUP that already has DENY access to this resource"
  | .directAllowExists =>
      some "User already has ALLOW access to this resource"
  | .directDenyExists =>
      some "User already has DENY access to this resource"
  | .noConflict => none

/-- Arguments of the add-permission request (app.py lines 506-516):
the entity identifier, whether it is a group (`user_id in groups_result`),
and the decision (`allow = (access == "allow")`). -/
structure AddArgs where
  principal : String
  isGroup : Bool
  wantAllow : Bool
deriving DecidableEq, Repr

/-- The failure of an add-permission call rejected by the conflict check,
carrying the classification whose branch fired. -/
inductive AddError where
  | conflictingGrant (c : Classification)
deriving DecidableEq, Repr

/-- Modelled from the spec: `putEntry` (section 4.2) creates the entry with
`enabled = true` (section 4.4 step 2); the backend walker that performs the
write is not part of src/. -/
def mkEntry (a : AddArgs) : Entry :=
  { ident := a.principal, isGroup := a.isGroup, enabled := true }

/-- `addPermission`: the handler's check-then-write (app.py lines
493-524).  If any branch of the if/elif chain other than the final `else`
fires, an error is shown and no write is made; otherwise the entry is
appended to the chosen list (the append itself is modelled from spec
section 4.4 step 2, since the store write happens in the backend). -/
def addPermission (gs : Groups) (s : AccessState) (a : AddArgs) :
    Except AddError Entry × AccessState :=
  match classify gs s a.principal with
  | .noConflict =>
      let e := mkEntry a
      (.ok e,
       if a.wantAllow then { s with allow := s.allow ++ [e] }
       else { s with deny := s.deny ++ [e] })
  | c => (.error (.conflictingGrant c), s)

/-- Modelled from the spec: `setEnabled` (section 4.2) updates the
`enabled` flag of the entry for the given principal, in place, in the one
list that holds it; the backend store is not part of src/. -/
def setEnabledIn (p : String) (b : Bool) (l : List Entry) : List Entry :=
  l.map fun e => if e.ident = p then { e with enabled := b } else e

/-- Modelled from the spec: `enableAccess` (section 4.4) looks up the
exact entry and calls `setEnabled`, failing with NotFound (here `none`)
if absent; the backend store is not part of src/. -/
def enableAccess (s : AccessState) (p : String) (b : Bool) :
    Option AccessState :=
  if p ∈ allowIds s ∨ p ∈ denyIds s then
    some { allow := setEnabledIn p b s.allow, deny := setEnabledIn p b s.deny }
  else none

/-- Modelled from the spec: `deletePermission` / `removeEntry` (sections
4.2 and 4.4) removes the entry for the principal from whichever list holds
it, failing with NotFound (here `none`) if absent; the backend store is
not part of src/. -/
def deletePermission (s : AccessState) (p : String) : Option AccessState :=
  if p ∈ allowIds s then
    some { s with allow := s.allow.filter fun e => e.ident != p }
  else if p ∈ denyIds s then
    some { s with deny := s.deny.filter fun e => e.ident != p }
  else none

/-- Flip every entry's `enabled` flag. -/
def flipEntry (e : Entry) : Entry := { e with enabled := !e.enabled }

/-- The same access state with every `enabled` flag flipped. -/
def flipState (s : AccessState) : AccessState :=
  { allow := s.allow.map flipEntry, deny := s.deny.map flipEntry }

/-- The store invariant of spec sections 3 and 8 for one (channel,
resource): allow and deny principal sets are disjoint and each list is
duplicate-free. -/
def inv (s : AccessState) : Prop :=
  (∀ x ∈ allowIds s, x ∉ denyIds s) ∧
  (allowIds s).Nodup ∧ (denyIds s).Nodup

instance (s : AccessState) : Decidable (inv s) := by
  unfold inv; infer_instance

/-- States reachable from the empty access state through the three
mutating operations of the engine: `addPermission`, `enableAccess` and
`deletePermission`. -/
inductive Reachable (gs : Groups) : AccessState → Prop where
  | empty : Reachable gs ⟨[], []⟩
  | add (s : AccessState) (a : AddArgs) :
      Reachable gs s → Reachable gs (addPermission gs s a).2
  | enable (s s' : AccessState) (p : String) (b : Bool) :
      Reachable gs s → enableAccess s p b = some s' → Reachable gs s'
  | delete (s s' : AccessState) (p : String) :
      Reachable gs s → deletePermission s p = some s' → Reachable gs s'

/-!
## Import handler (app.py lines 95-140)

The import button parses the text (JSON first, YAML as fallback) and then
shapes the payload.  We model the parsed Python value as `DocVal` and the
handler's behaviour over it; the parse itself is summarised by its three
possible outcomes: an exception (caught by the surrounding try/except), a
`None` result, or a value.
-/

/-- A parsed YAML/JSON document value (a Python value as produced by
`json.loads` / `yaml.safe_load`). -/
inductive DocVal where
  | null
  | boolv (b : Bool)
  | num (n : Int)
  | str (s : String)
  | arr (xs : List DocVal)
  | map (kvs : List (String × DocVal))

/-- Whether a document value is the Python string `k` (the equality used
by `k in some_list`). -/
def isStrVal (k : String) : DocVal → Bool
  | .str s => s == k
  | _ => false

/-- Whether the character list `needle` is a prefix of `hay`. -/
def charsStart : List Char → List Char → Bool
  | [], _ => true
  | _ :: _, [] => false
  | a :: as, b :: bs => a == b && charsStart as bs

/-- Whether `needle` occurs contiguously anywhere in the character
list. -/
def charsAnywhere (needle : List Char) : List Char → Bool
  | [] => charsStart needle []
  | c :: cs => charsStart needle (c :: cs) || charsAnywhere needle cs

/-- Python `needle in hay` for strings: substring containment. -/
def strHas (hay needle : String) : Bool :=
  charsAnywhere needle.data hay.data

/-- Python `k in v` for a parsed value `v` and string `k`: key membership
for a dict, element membership for a list, substring for a string, and a
`TypeError` (here `none`) for a scalar or `None`. -/
def containsKey : DocVal → String → Option Bool
  | .map kvs, k => some (kvs.any fun kv => kv.1 == k)
  | .arr xs, k => some (xs.any (isStrVal k))
  | .str s, k => some (strHas s k)
  | .null, _ => none
  | .boolv _, _ => none
  | .num _, _ => none

/-- Lookup of a key in a parsed dict's entry list (first match, as in a
Python dict where keys are unique). -/
def lookupKV : List (String × DocVal) → String → Option DocVal
  | [], _ => none
  | kv :: rest, k => if kv.1 = k then some kv.2 else lookupKV rest k

/-- Python `v[k]` for string `k`: defined for a dict with that key,
`TypeError` / `KeyError` (here `none`) otherwise. -/
def getKey : DocVal → String → Option DocVal
  | .map kvs, k => lookupKV kvs k
  | _, _ => none

/-- What the import button does after parsing: show the "No valid
permissions data provided" error without calling the API, catch an
exception at the surrounding except (also without calling the API), or
call the import API with the given `permissions` and `session_groups`
payloads. -/
inductive ImportOutcome where
  | noData
  | caughtError
  | write (permissions : DocVal) (sessionGroups : DocVal)

/-- Whether the outcome issues the import API call. -/
def issuesWrite : ImportOutcome → Bool
  | .write _ _ => true
  | _ => false

/-- The shaping logic of the import handler (app.py lines 110-132) on the
parsed value; `none` stands for `data_to_import is None`.  The two `in`
checks short-circuit exactly as the Python `and` does, a `TypeError`
raised by either (or by the dict indexing) is caught by the handler's
try/except, and when the wrapper keys are not both present the whole
document is sent as `permissions` with `session_groups = dict()`. -/
def importParsed : Option DocVal → ImportOutcome
  | none => .noData
  | some v =>
    match containsKey v "session_groups" with
    | none => .caughtError
    | some false => .write v (.map [])
    | some true =>
      match containsKey v "permissions" with
      | none => .caughtError
      | some false => .write v (.map [])
      | some true =>
        match getKey v "permissions", getKey v "session_groups" with
        | some p, some sg => .write p sg
        | _, _ => .caughtError

/-!
## The `result` variable across a render pass (app.py lines 187-191 and
455-466)

`render` is one Python function, and Streamlit re-executes it top to
bottom on every interaction.  The local variable `result` is assigned by
the walrus at line 187 (`if result := call_api(get_users)`), which runs
unconditionally inside the always-rendered users tab, and reassigned to
the reports payload at line 191 when that response is truthy.  The Add
Permission handler (lines 455-466) assigns `result` again at line 464
only when the `get_access` pre-check response is truthy with status 200,
and then reads `result` at line 466.  We model the binding state of
`result` at that read.
-/

/-- The binding state of a Python local variable: unbound (reading it
raises `NameError`) or bound to a value. -/
inductive Binding where
  | unbound
  | bound (v : DocVal)

/-- The binding of `result` after the users tab has rendered (app.py lines
187-191): the walrus always assigns the `get_users` response, and a truthy
response is replaced by its reports payload.  `usersCall = none` stands
for a falsy response (modelled as Python `None`); `some p` for a truthy
200 response whose payload is `p`. -/
def resultAfterUsersTab (usersCall : Option DocVal) : Binding :=
  match usersCall with
  | none => .bound .null
  | some p => .bound p

/-- The binding of `result` at the read on line 466 of the Add Permission
handler: line 464 reassigns it only when the `get_access` response is
truthy with status 200 (`accessCall = some payload`); otherwise the
binding left by the users tab is still in force. -/
def resultAtPrecheckRead (usersCall accessCall : Option DocVal) : Binding :=
  match accessCall with
  | some payload => .bound payload
  | none => resultAfterUsersTab usersCall

/-!
## Helper lemmas
-/

theorem lookupGroup_mem {gs : Groups} {n : String} {ms : List String}
    (h : lookupGroup gs n = some ms) : (n, ms) ∈ gs := by
  induction gs with
  | nil => simp [lookupGroup] at h
  | cons gm rest ih =>
    obtain ⟨a, b⟩ := gm
    simp only [lookupGroup] at h
    split at h
    · rename_i heq
      injection h with h2
      subst heq
      subst h2
      exact List.mem_cons_self _ _
    · exact List.mem_cons_of_mem _ (ih h)

theorem not_mem_groupMembers {gs : Groups} {p : String}
    (h : ∀ gm ∈ gs, p ∉ gm.2) (e : Entry) : p ∉ groupMembers gs e := by
  unfold groupMembers
  split
  · cases hl : lookupGroup gs e.ident with
    | none => simp [hl]
    | some ms => simpa [hl] using h _ (lookupGroup_mem hl)
  · simp

theorem not_mem_expandGroups {gs : Groups} {p : String}
    (h : ∀ gm ∈ gs, p ∉ gm.2) (l : List Entry) : p ∉ expandGroups gs l := by
  induction l with
  | nil => simp [expandGroups]
  | cons e rest ih =>
    simp only [expandGroups, List.flatMap_cons, List.mem_append] at *
    exact fun hc => hc.elim (not_mem_groupMembers h e) ih

theorem classify_noConflict_iff (gs : Groups) (s : AccessState) (c : String) :
    classify gs s c = .noConflict ↔
      c ∉ expandGroups gs s.deny ∧ c ∉ expandGroups gs s.allow ∧
      c ∉ allowIds s ∧ c ∉ denyIds s := by
  unfold classify
  split_ifs <;> simp_all

/-!
## Claims about the conflict checker
-/

/-- C1: in the spec's concrete scenario (group "staff" = set containing
alice; "staff" in the Allow list) an add-permission call for alice is
detected through the allow-side group expansion, i.e. classified
`inheritedAllowViaGroup`; but the handler's displayed message names the
DENY side, and symmetrically the deny-side detection displays the ALLOW
message.  This evaluates the code at the failing input and exhibits the
swapped report. -/
theorem inherited_conflict_message_swapped_at_scenario :
    classify [("staff", ["alice"])]
        ⟨[⟨"staff", true, true⟩], []⟩ "alice" = .inheritedAllowViaGroup ∧
    errorMessage .inheritedAllowViaGroup =
      some "User is in a GROUP that already has DENY access to this resource" ∧
    classify [("staff", ["alice"])]
        ⟨[], [⟨"staff", true, true⟩]⟩ "alice" = .inheritedDenyViaGroup ∧
    errorMessage .inheritedDenyViaGroup =
      some "User is in a GROUP that already has ALLOW access to this resource" := by
  refine ⟨by decide, rfl, by decide, rfl⟩

/-- C2 counterexample: a candidate that is directly in the allow list yet
also a member of a group in the deny list is classified through the group
expansion, not as `directAllowExists`; the direct check is not performed
first. -/
theorem direct_allow_loses_to_group_cover :
    classify [("g", ["u"])]
        ⟨[⟨"u", false, true⟩], [⟨"g", true, true⟩]⟩ "u" = .inheritedDenyViaGroup ∧
    "u" ∈ allowIds ⟨[⟨"u", false, true⟩], [⟨"g", true, true⟩]⟩ ∧
    Classification.inheritedDenyViaGroup ≠ .directAllowExists := by
  decide

/-- C2 (amended): the conflict classification checks group-expansion
membership first (deny expansion, then allow expansion); the direct
classifications are returned only when the candidate is in neither
expansion set, allow-direct before deny-direct. -/
theorem classify_checks_group_expansion_first
    (gs : Groups) (s : AccessState) (c : String) :
    (c ∈ expandGroups gs s.deny → classify gs s c = .inheritedDenyViaGroup) ∧
    (c ∉ expandGroups gs s.deny → c ∈ expandGroups gs s.allow →
      classify gs s c = .inheritedAllowViaGroup) ∧
    (c ∉ expandGroups gs s.deny → c ∉ expandGroups gs s.allow →
      c ∈ allowIds s → classify gs s c = .directAllowExists) ∧
    (c ∉ expandGroups gs s.deny → c ∉ expandGroups gs s.allow →
      c ∉ allowIds s → c ∈ denyIds s → classify gs s c = .directDenyExists) := by
  unfold classify
  refine ⟨?_, ?_, ?_, ?_⟩ <;> intros <;> split_ifs <;> simp_all

/-- C2 witness: with no covering group, a directly allow-listed candidate
is classified `directAllowExists`. -/
theorem classify_checks_group_expansion_first_witness :
    classify [] ⟨[⟨"u", false, true⟩], []⟩ "u" = .directAllowExists :=
  (classify_checks_group_expansion_first [] ⟨[⟨"u", false, true⟩], []⟩ "u").2.2.1
    (by decide) (by decide) (by decide)

/-- C3: among the inherited classifications deny wins: a candidate that is
in the deny-list group expansion and also in the allow-list group
expansion is classified through the deny expansion, because that
membership test is evaluated first. -/
theorem inherited_deny_wins (gs : Groups) (s : AccessState) (c : String)
    (hd : c ∈ expandGroups gs s.deny) (ha : c ∈ expandGroups gs s.allow) :
    classify gs s c = .inheritedDenyViaGroup := by
  unfold classify
  split_ifs <;> simp_all

/-- C3 witness: a user in a denied group and an allowed group is
classified through the deny expansion. -/
theorem inherited_deny_wins_witness :
    classify [("g1", ["u"]), ("g2", ["u"])]
      ⟨[⟨"g2", true, true⟩], [⟨"g1", true, true⟩]⟩ "u" = .inheritedDenyViaGroup :=
  inherited_deny_wins _ _ _ (by decide) (by decide)

/-!
## Helper lemmas about the engine operations
-/

theorem addPermission_conflict_eq (gs : Groups) (s : AccessState) (a : AddArgs)
    (h : classify gs s a.principal ≠ .noConflict) :
    addPermission gs s a =
      (.error (.conflictingGrant (classify gs s a.principal)), s) := by
  unfold addPermission
  cases hc : classify gs s a.principal <;> simp_all

theorem addPermission_noConflict_eq (gs : Groups) (s : AccessState) (a : AddArgs)
    (h : classify gs s a.principal = .noConflict) :
    addPermission gs s a =
      (.ok (mkEntry a),
       if a.wantAllow then { s with allow := s.allow ++ [mkEntry a] }
       else { s with deny := s.deny ++ [mkEntry a] }) := by
  unfold addPermission
  rw [h]

theorem listIdents_append (l1 l2 : List Entry) :
    listIdents (l1 ++ l2) = listIdents l1 ++ listIdents l2 := by
  simp [listIdents]

theorem listIdents_map_flipEntry (l : List Entry) :
    listIdents (l.map flipEntry) = listIdents l := by
  induction l with
  | nil => rfl
  | cons e rest ih => simpa [listIdents, flipEntry] using ih

theorem expandGroups_map_flipEntry (gs : Groups) (l : List Entry) :
    expandGroups gs (l.map flipEntry) = expandGroups gs l := by
  induction l with
  | nil => rfl
  | cons e rest ih =>
    have hgm : groupMembers gs (flipEntry e) = groupMembers gs e := rfl
    simp only [List.map_cons, expandGroups, List.flatMap_cons] at *
    rw [ih, hgm]

theorem classify_flipState (gs : Groups) (s : AccessState) (c : String) :
    classify gs (flipState s) c = classify gs s c := by
  have h1 : expandGroups gs (flipState s).deny = expandGroups gs s.deny :=
    expandGroups_map_flipEntry gs s.deny
  have h2 : expandGroups gs (flipState s).allow = expandGroups gs s.allow :=
    expandGroups_map_flipEntry gs s.allow
  have h3 : allowIds (flipState s) = allowIds s := listIdents_map_flipEntry s.allow
  have h4 : denyIds (flipState s) = denyIds s := listIdents_map_flipEntry s.deny
  unfold classify
  rw [h1, h2, h3, h4]

theorem classify_eq_directAllow {gs : Groups} {s : AccessState} {c : String}
    (h1 : c ∉ expandGroups gs s.deny) (h2 : c ∉ expandGroups gs s.allow)
    (h3 : c ∈ allowIds s) : classify gs s c = .directAllowExists := by
  unfold classify
  split_ifs <;> simp_all

theorem classify_eq_directDeny {gs : Groups} {s : AccessState} {c : String}
    (h1 : c ∉ expandGroups gs s.deny) (h2 : c ∉ expandGroups gs s.allow)
    (h3 : c ∉ allowIds s) (h4 : c ∈ denyIds s) :
    classify gs s c = .directDenyExists := by
  unfold classify
  split_ifs <;> simp_all

theorem classify_eq_inheritedDeny {gs : Groups} {s : AccessState} {c : String}
    (h1 : c ∈ expandGroups gs s.deny) :
    classify gs s c = .inheritedDenyViaGroup := by
  unfold classify
  split_ifs <;> simp_all

theorem classify_eq_inheritedAllow {gs : Groups} {s : AccessState} {c : String}
    (h1 : c ∉ expandGroups gs s.deny) (h2 : c ∈ expandGroups gs s.allow) :
    classify gs s c = .inheritedAllowViaGroup := by
  unfold classify
  split_ifs <;> simp_all

theorem expandGroups_append (gs : Groups) (l1 l2 : List Entry) :
    expandGroups gs (l1 ++ l2) = expandGroups gs l1 ++ expandGroups gs l2 := by
  simp [expandGroups]

theorem listIdents_setEnabledIn (p : String) (b : Bool) (l : List Entry) :
    listIdents (setEnabledIn p b l) = listIdents l := by
  induction l with
  | nil => rfl
  | cons e rest ih =>
    simp only [setEnabledIn, listIdents, List.map_cons] at *
    rw [ih]
    congr 1
    split <;> rfl

theorem listIdents_filter_sublist (p : String) (l : List Entry) :
    List.Sublist (listIdents (l.filter fun e => e.ident != p)) (listIdents l) :=
  (List.filter_sublist l).map _

theorem inv_append_allow {s : AccessState} (h : inv s) {e : Entry}
    (hna : e.ident ∉ allowIds s) (hnd : e.ident ∉ denyIds s) :
    inv { s with allow := s.allow ++ [e] } := by
  obtain ⟨hdisj, hA, hD⟩ := h
  have hids : allowIds { s with allow := s.allow ++ [e] }
      = allowIds s ++ [e.ident] := listIdents_append s.allow [e]
  refine ⟨?_, ?_, hD⟩
  · intro x hx
    rw [hids] at hx
    rcases List.mem_append.mp hx with hx | hx
    · exact hdisj x hx
    · simp at hx
      subst hx
      exact hnd
  · rw [hids]
    simp [List.nodup_append, hA, hna]

theorem inv_append_deny {s : AccessState} (h : inv s) {e : Entry}
    (hna : e.ident ∉ allowIds s) (hnd : e.ident ∉ denyIds s) :
    inv { s with deny := s.deny ++ [e] } := by
  obtain ⟨hdisj, hA, hD⟩ := h
  have hids : denyIds { s with deny := s.deny ++ [e] }
      = denyIds s ++ [e.ident] := listIdents_append s.deny [e]
  refine ⟨?_, hA, ?_⟩
  · intro x hx
    rw [hids]
    simp only [List.mem_append, List.mem_singleton]
    rintro (hc | hc)
    · exact hdisj x hx hc
    · exact hna (hc ▸ hx)
  · rw [hids]
    simp [List.nodup_append, hD, hnd]

theorem inv_addPermission {gs : Groups} {s : AccessState} (h : inv s) (a : AddArgs) :
    inv (addPermission gs s a).2 := by
  by_cases hc : classify gs s a.principal = .noConflict
  · rw [addPermission_noConflict_eq gs s a hc]
    obtain ⟨-, -, hna, hnd⟩ := (classify_noConflict_iff gs s a.principal).mp hc
    by_cases hw : a.wantAllow = true
    · rw [if_pos hw]
      exact inv_append_allow h (e := mkEntry a) hna hnd
    · rw [if_neg hw]
      exact inv_append_deny h (e := mkEntry a) hna hnd
  · rw [addPermission_conflict_eq gs s a hc]
    exact h

theorem inv_enableAccess {s s' : AccessState} {p : String} {b : Bool} (h : inv s)
    (he : enableAccess s p b = some s') : inv s' := by
  unfold enableAccess at he
  split at he
  · injection he with he
    subst he
    obtain ⟨hdisj, hA, hD⟩ := h
    have hidsA : allowIds ⟨setEnabledIn p b s.allow, setEnabledIn p b s.deny⟩
        = allowIds s := listIdents_setEnabledIn p b s.allow
    have hidsD : denyIds ⟨setEnabledIn p b s.allow, setEnabledIn p b s.deny⟩
        = denyIds s := listIdents_setEnabledIn p b s.deny
    refine ⟨?_, ?_, ?_⟩
    · rw [hidsA, hidsD]
      exact hdisj
    · rw [hidsA]
      exact hA
    · rw [hidsD]
      exact hD
  · cases he

theorem inv_deletePermission {s s' : AccessState} {p : String} (h : inv s)
    (hd : deletePermission s p = some s') : inv s' := by
  obtain ⟨hdisj, hA, hD⟩ := h
  unfold deletePermission at hd
  split_ifs at hd <;> injection hd with hd <;> subst hd
  · refine ⟨?_, hA.sublist (listIdents_filter_sublist p s.allow), hD⟩
    intro x hx
    exact hdisj x ((listIdents_filter_sublist p s.allow).subset hx)
  · refine ⟨?_, hA, hD.sublist (listIdents_filter_sublist p s.deny)⟩
    intro x hx hc
    exact hdisj x hx ((listIdents_filter_sublist p s.deny).subset hc)

/-!
## Claims about the engine operations
-/

/-- C4: the conflict classification is insensitive to the `enabled` flag:
flipping every entry's flag leaves the classification unchanged; in
particular an add of an allow grant for a principal with a disabled deny
entry is still rejected with a conflict and no write. -/
theorem classify_enabled_flag_irrelevant :
    (∀ (gs : Groups) (s : AccessState) (c : String),
      classify gs (flipState s) c = classify gs s c) ∧
    (∀ (gs : Groups) (s : AccessState) (a : AddArgs), a.wantAllow = true →
      (∃ e ∈ s.deny, e.ident = a.principal ∧ e.enabled = false) →
      (∃ c, (addPermission gs s a).1 = .error (.conflictingGrant c)) ∧
      (addPermission gs s a).2 = s) := by
  refine ⟨classify_flipState, ?_⟩
  rintro gs s a hw ⟨e, he, hid, hen⟩
  have hmem : a.principal ∈ denyIds s := by
    simp only [denyIds, listIdents, List.mem_map]
    exact ⟨e, he, hid⟩
  have hnc : classify gs s a.principal ≠ .noConflict := fun h =>
    ((classify_noConflict_iff gs s a.principal).mp h).2.2.2 hmem
  rw [addPermission_conflict_eq gs s a hnc]
  exact ⟨⟨_, rfl⟩, rfl⟩

/-- C4 witness: a disabled deny entry for "u" blocks an allow grant for
"u": the state is unchanged. -/
theorem classify_enabled_flag_irrelevant_witness :
    (addPermission [] ⟨[], [⟨"u", false, false⟩]⟩ ⟨"u", false, true⟩).2
      = ⟨[], [⟨"u", false, false⟩]⟩ :=
  (classify_enabled_flag_irrelevant.2 [] ⟨[], [⟨"u", false, false⟩]⟩
    ⟨"u", false, true⟩ rfl ⟨⟨"u", false, false⟩, by decide, rfl, rfl⟩).2

/-- C5: addPermission is atomic on rejection: whenever the classification
is anything other than `noConflict`, the call fails with
`conflictingGrant` carrying that classification and the access state is
exactly as before. -/
theorem addPermission_rejects_without_write (gs : Groups) (s : AccessState)
    (a : AddArgs) (h : classify gs s a.principal ≠ .noConflict) :
    (addPermission gs s a).1 =
      .error (.conflictingGrant (classify gs s a.principal)) ∧
    (addPermission gs s a).2 = s := by
  rw [addPermission_conflict_eq gs s a h]
  exact ⟨rfl, rfl⟩

/-- C5 witness: a deny request for a directly allow-listed principal is
rejected with the direct-allow classification and no write. -/
theorem addPermission_rejects_without_write_witness :
    (addPermission [] ⟨[⟨"u", false, true⟩], []⟩ ⟨"u", false, false⟩).1
      = .error (.conflictingGrant .directAllowExists) ∧
    (addPermission [] ⟨[⟨"u", false, true⟩], []⟩ ⟨"u", false, false⟩).2
      = ⟨[⟨"u", false, true⟩], []⟩ := by
  have h := addPermission_rejects_without_write []
    ⟨[⟨"u", false, true⟩], []⟩ ⟨"u", false, false⟩ (by decide)
  have hc : classify [] ⟨[⟨"u", false, true⟩], []⟩
      (AddArgs.mk "u" false false).principal = .directAllowExists := by decide
  exact ⟨hc ▸ h.1, h.2⟩

/-- C6 counterexample: on a state satisfying the claim's own hypothesis —
no prior entry for the principal and no listed group covering it (the
empty state) — the claim's conclusion fails for the group "g" whose
member list contains "g": the first call succeeds, but the identical
second call is rejected with `inheritedAllowViaGroup`, not
`directAllowExists`, because the group expansion of the just-created
entry now covers the candidate and is checked before the direct lists. -/
theorem second_call_inherited_on_self_membered_group :
    (addPermission [("g", ["g"])] ⟨[], []⟩ ⟨"g", true, true⟩).1 =
      .ok (mkEntry ⟨"g", true, true⟩) ∧
    "g" ∉ allowIds (⟨[], []⟩ : AccessState) ∧
    "g" ∉ denyIds (⟨[], []⟩ : AccessState) ∧
    "g" ∉ expandGroups [("g", ["g"])] (⟨[], []⟩ : AccessState).allow ∧
    "g" ∉ expandGroups [("g", ["g"])] (⟨[], []⟩ : AccessState).deny ∧
    (addPermission [("g", ["g"])]
        (addPermission [("g", ["g"])] ⟨[], []⟩ ⟨"g", true, true⟩).2
        ⟨"g", true, true⟩).1 =
      .error (.conflictingGrant .inheritedAllowViaGroup) ∧
    Classification.inheritedAllowViaGroup ≠ .directAllowExists := by
  refine ⟨rfl, by decide, by decide, by decide, by decide, rfl, by decide⟩

/-- C6 (amended): on a state with no prior entry for the principal and no
listed group covering it, the first call succeeds and creates the entry,
and the identical second call is rejected; its classification is the
direct one matching the first call's decision unless the created entry is
a group whose own member set contains the principal's identifier, in
which case it is the same-side inherited classification (the group
expansion is checked before the direct lists). -/
theorem addPermission_second_call_rejection_classes
    (gs : Groups) (s : AccessState) (a : AddArgs)
    (ha : a.principal ∉ allowIds s) (hd : a.principal ∉ denyIds s)
    (hea : a.principal ∉ expandGroups gs s.allow)
    (hed : a.principal ∉ expandGroups gs s.deny) :
    (addPermission gs s a).1 = .ok (mkEntry a) ∧
    (a.principal ∉ groupMembers gs (mkEntry a) →
      (addPermission gs (addPermission gs s a).2 a).1 =
        .error (.conflictingGrant
          (if a.wantAllow then .directAllowExists else .directDenyExists))) ∧
    (a.principal ∈ groupMembers gs (mkEntry a) →
      (addPermission gs (addPermission gs s a).2 a).1 =
        .error (.conflictingGrant
          (if a.wantAllow then .inheritedAllowViaGroup
           else .inheritedDenyViaGroup))) := by
  have hnc : classify gs s a.principal = .noConflict :=
    (classify_noConflict_iff gs s a.principal).mpr ⟨hed, hea, ha, hd⟩
  have h1 := addPermission_noConflict_eq gs s a hnc
  refine ⟨by rw [h1], ?_, ?_⟩
  · intro hng
    rw [h1]
    by_cases hw : a.wantAllow = true
    · simp only [if_pos hw]
      have hexp : a.principal ∉ expandGroups gs (s.allow ++ [mkEntry a]) := by
        rw [expandGroups_append]
        simp only [List.mem_append]
        rintro (hc | hc)
        · exact hea hc
        · apply hng
          simpa [expandGroups] using hc
      have hmem : a.principal ∈ allowIds { s with allow := s.allow ++ [mkEntry a] } := by
        simp [allowIds, listIdents, mkEntry]
      have hc2 : classify gs { s with allow := s.allow ++ [mkEntry a] } a.principal
          = .directAllowExists :=
        classify_eq_directAllow hed hexp hmem
      rw [addPermission_conflict_eq gs _ a (by simp [hc2]), hc2]
    · simp only [if_neg hw]
      have hexp : a.principal ∉ expandGroups gs (s.deny ++ [mkEntry a]) := by
        rw [expandGroups_append]
        simp only [List.mem_append]
        rintro (hc | hc)
        · exact hed hc
        · apply hng
          simpa [expandGroups] using hc
      have hmem : a.principal ∈ denyIds { s with deny := s.deny ++ [mkEntry a] } := by
        simp [denyIds, listIdents, mkEntry]
      have hc2 : classify gs { s with deny := s.deny ++ [mkEntry a] } a.principal
          = .directDenyExists :=
        classify_eq_directDeny hexp hea ha hmem
      rw [addPermission_conflict_eq gs _ a (by simp [hc2]), hc2]
  · intro hng
    rw [h1]
    by_cases hw : a.wantAllow = true
    · simp only [if_pos hw]
      have hexp : a.principal ∈ expandGroups gs (s.allow ++ [mkEntry a]) := by
        rw [expandGroups_append]
        simp only [List.mem_append]
        right
        simpa [expandGroups] using hng
      have hc2 : classify gs { s with allow := s.allow ++ [mkEntry a] } a.principal
          = .inheritedAllowViaGroup :=
        classify_eq_inheritedAllow hed hexp
      rw [addPermission_conflict_eq gs _ a (by simp [hc2]), hc2]
    · simp only [if_neg hw]
      have hexp : a.principal ∈ expandGroups gs (s.deny ++ [mkEntry a]) := by
        rw [expandGroups_append]
        simp only [List.mem_append]
        right
        simpa [expandGroups] using hng
      have hc2 : classify gs { s with deny := s.deny ++ [mkEntry a] } a.principal
          = .inheritedDenyViaGroup :=
        classify_eq_inheritedDeny hexp
      rw [addPermission_conflict_eq gs _ a (by simp [hc2]), hc2]

/-- C6 witness: alice is a member of group staff, but staff is in neither
list, so the claim's hypothesis holds on the empty state: the first allow
grant for alice succeeds and the identical second call is rejected with
the matching direct classification. -/
theorem addPermission_second_call_rejection_classes_witness :
    (addPermission [("staff", ["alice"])] ⟨[], []⟩ ⟨"alice", false, true⟩).1 =
      .ok (mkEntry ⟨"alice", false, true⟩) ∧
    (addPermission [("staff", ["alice"])]
        (addPermission [("staff", ["alice"])] ⟨[], []⟩ ⟨"alice", false, true⟩).2
        ⟨"alice", false, true⟩).1 =
      .error (.conflictingGrant
        (if (AddArgs.mk "alice" false true).wantAllow then .directAllowExists
         else .directDenyExists)) := by
  have h := addPermission_second_call_rejection_classes [("staff", ["alice"])]
    ⟨[], []⟩ ⟨"alice", false, true⟩ (by decide) (by decide) (by decide) (by decide)
  exact ⟨h.1, h.2.1 (by decide)⟩

/-- C7: every state reachable from the empty access state through
`addPermission`, `enableAccess` and `deletePermission` satisfies the
store invariant: allow and deny principal sets are disjoint and each list
is duplicate-free; each of the three mutating operations preserves it. -/
theorem reachable_states_satisfy_inv (gs : Groups) (s : AccessState)
    (h : Reachable gs s) : inv s := by
  induction h with
  | empty => exact ⟨by simp [allowIds, listIdents], by simp [allowIds, listIdents],
      by simp [denyIds, listIdents]⟩
  | add s a _ ih => exact inv_addPermission ih a
  | enable s s' p b _ he ih => exact inv_enableAccess ih he
  | delete s s' p _ hd ih => exact inv_deletePermission ih hd

/-- C7 witness: the state after one successful grant is reachable and
satisfies the invariant. -/
theorem reachable_states_satisfy_inv_witness :
    inv (addPermission [] ⟨[], []⟩ ⟨"alice", false, true⟩).2 :=
  reachable_states_satisfy_inv [] _
    (Reachable.add ⟨[], []⟩ ⟨"alice", false, true⟩ Reachable.empty)

/-!
## Claims about the import handler and the pre-check read
-/

theorem lookupKV_some_any (kvs : List (String × DocVal)) (k : String) :
    kvs.any (fun kv => kv.1 == k) = (lookupKV kvs k).isSome := by
  induction kvs with
  | nil => rfl
  | cons kv rest ih =>
    by_cases hk : kv.1 = k
    · simp [lookupKV, hk]
    · simp [lookupKV, hk, ih]

/-- C8 counterexample: a document that parses as a bare JSON list (not a
mapping in either accepted shape) is not rejected: the handler issues
the API call with the list itself as the permissions payload. -/
theorem import_forwards_bare_list :
    importParsed (some (.arr [.num 1, .num 2]))
      = .write (.arr [.num 1, .num 2]) (.map []) ∧
    issuesWrite (importParsed (some (.arr [.num 1, .num 2]))) = true :=
  ⟨rfl, rfl⟩

/-- C8 (amended): an input that fails to parse raises a caught exception
(error shown, no write), an input parsing to `None` is rejected with the
no-data error and no write, an input parsing to a bare non-iterable scalar
(number or boolean) raises a caught `TypeError` (error shown, no write) —
but an input parsing to a list that does not contain both wrapper marker
strings is forwarded whole as the permissions payload rather than
rejected. -/
theorem import_malformed_handling :
    importParsed none = .noData ∧
    (∀ b : Bool, importParsed (some (.boolv b)) = .caughtError) ∧
    (∀ n : Int, importParsed (some (.num n)) = .caughtError) ∧
    importParsed (some .null) = .caughtError ∧
    (∀ xs : List DocVal,
      xs.any (isStrVal "session_groups") = false ∨
        xs.any (isStrVal "permissions") = false →
      importParsed (some (.arr xs)) = .write (.arr xs) (.map [])) := by
  refine ⟨rfl, fun b => rfl, fun n => rfl, rfl, ?_⟩
  intro xs h
  rcases h with h | h
  · simp [importParsed, containsKey, h]
  · cases hsg : xs.any (isStrVal "session_groups") <;>
      simp [importParsed, containsKey, h, hsg]

/-- C8 witness: a singleton list document is forwarded whole. -/
theorem import_malformed_handling_witness :
    importParsed (some (.arr [.str "a"])) = .write (.arr [.str "a"]) (.map []) :=
  import_malformed_handling.2.2.2.2 [.str "a"] (.inl (by decide))

/-- C9: shape resolution for a parsed mapping document: when both the
`permissions` and `session_groups` keys are present the two values are
sent separately; otherwise the whole mapping is sent as the permissions
payload with an empty membership document. -/
theorem import_shape_resolution (kvs : List (String × DocVal)) :
    (∀ p sg : DocVal, lookupKV kvs "permissions" = some p →
      lookupKV kvs "session_groups" = some sg →
      importParsed (some (.map kvs)) = .write p sg) ∧
    ((lookupKV kvs "permissions" = none ∨ lookupKV kvs "session_groups" = none) →
      importParsed (some (.map kvs)) = .write (.map kvs) (.map [])) := by
  constructor
  · intro p sg hp hsg
    have h1 : kvs.any (fun kv => kv.1 == "session_groups") = true := by
      rw [lookupKV_some_any, hsg]
      rfl
    have h2 : kvs.any (fun kv => kv.1 == "permissions") = true := by
      rw [lookupKV_some_any, hp]
      rfl
    simp [importParsed, containsKey, getKey, h1, h2, hp, hsg]
  · intro h
    rcases h with h | h
    · have h2 : kvs.any (fun kv => kv.1 == "permissions") = false := by
        rw [lookupKV_some_any, h]
        rfl
      cases hsg : kvs.any (fun kv => kv.1 == "session_groups") <;>
        simp [importParsed, containsKey, h2, hsg]
    · have h1 : kvs.any (fun kv => kv.1 == "session_groups") = false := by
        rw [lookupKV_some_any, h]
        rfl
      simp [importParsed, containsKey, h1]

/-- C9 witness: a wrapper mapping is split into its two parts. -/
theorem import_shape_resolution_witness :
    importParsed (some (.map [("permissions", .num 1), ("session_groups", .num 2)]))
      = .write (.num 1) (.num 2) :=
  (import_shape_resolution [("permissions", .num 1), ("session_groups", .num 2)]).1
    (.num 1) (.num 2) rfl rfl

/-- C10 counterexample: there is no input on which the Add Permission
handler's pre-check read of `result` (app.py line 466) finds the variable
unbound: the walrus assignment in the users tab (line 187) has always
executed earlier in the same render pass, so no `NameError` can be
raised there. -/
theorem precheck_read_never_unbound :
    ¬ ∃ u a : Option DocVal, resultAtPrecheckRead u a = .unbound := by
  rintro ⟨u, a, h⟩
  cases a <;> cases u <;> simp [resultAtPrecheckRead, resultAfterUsersTab] at h

/-- C10 (amended): when the `get_access` pre-check call fails (falsy
response or non-200 status), the handler reads the stale value `result`
was given by the earlier `get_users` call of the same render pass — a
bound, stale value, never an unbound variable. -/
theorem precheck_read_stale_binding (u : Option DocVal) :
    resultAtPrecheckRead u none = resultAfterUsersTab u ∧
    resultAfterUsersTab u ≠ .unbound := by
  refine ⟨rfl, ?_⟩
  cases u <;> simp [resultAfterUsersTab]

/-- C10 auxiliary instance: with a users payload and a failed pre-check,
the read yields the stale users payload. -/
theorem precheck_read_stale_binding_witness :
    resultAtPrecheckRead (some (.arr [])) none = resultAfterUsersTab (some (.arr [])) :=
  (precheck_read_stale_binding (some (.arr []))).1

end AccessControl
